import Mathlib

/-!
A shallow embedding of the foo-lang pipeline (src/lex.rs, src/ast.rs,
src/interp.rs): a tokenizer, a recursive-descent parser and a tree-walking
interpreter for a small imperative language, together with theorems about
the claims of the specification.

Conventions of the embedding:
* Rust panics and `expect`/`unwrap`/`assert!` failures are modelled as
  `Except.error` values carrying the corresponding error kind (the spec's
  error taxonomy names).
* The `u32` runtime integer is modelled as `Nat`; `u32` addition is
  `(l + r) % 2 ^ 32` (unsigned wraparound semantics, as the spec documents).
* `HashMap` is modelled as an association list where insertion prepends and
  lookup takes the first binding, which has the same lookup semantics.
* Possibly non-terminating recursion (the interpreter can recurse through
  user function calls; the parser and the token loop recurse on their
  input) is given a fuel parameter; exhausted fuel is the `OutOfFuel`
  error, the analogue of the fatal call-stack-exhaustion failure the spec
  names as a non-recoverable resource error. All theorems below are stated
  so that `OutOfFuel` never stands in for a real result.
-/

namespace FooLang

/-- The token type. Note: `src/lex.rs` declares only the variants `Begin`,
`LeftBrace`, `RightBrace`, `Var`, `Ident`, `Equals`, `Integer`, `LeftParen`,
`RightParen`, `Plus`, `Semicolon`. The parser in `src/ast.rs` additionally
pattern-matches `Token::Func`, `Token::Return` and `Token::Comma`, which do
not exist in that enum, so the crate as given cannot compile. We include the
three extra variants so that the parser of `src/ast.rs` is expressible; the
lexer below, faithful to `src/lex.rs`, never produces them. -/
inductive Token where
  | Begin
  | LeftBrace
  | RightBrace
  | Var
  | Ident (s : String)
  | Equals
  | Integer (s : String)
  | LeftParen
  | RightParen
  | Plus
  | Semicolon
  | Func
  | Return
  | Comma
deriving DecidableEq, Repr

/-- Rust `char::is_ascii_whitespace`: space, tab, newline, form feed,
carriage return. -/
def is_ascii_whitespace (c : Char) : Bool :=
  c = ' ' || c = '\t' || c = '\n' || c = '\x0c' || c = '\r'

/-- Rust `char::is_alphabetic`, restricted to ASCII letters (every input the
claims mention is ASCII; on ASCII the two predicates agree). -/
def is_alphabetic (c : Char) : Bool :=
  ('a' ≤ c && c ≤ 'z') || ('A' ≤ c && c ≤ 'Z')

/-- `TokenStream::eat_while` on the remaining characters: the run of leading
characters matching the predicate together with the rest, or `none` when the
run is empty. -/
def eat_while (p : Char → Bool) (cs : List Char) : Option (List Char × List Char) :=
  let m := cs.takeWhile p
  if m.length = 0 then none else some (m, cs.drop m.length)

/-- `TokenStream::lex_bareword` (src/lex.rs lines 57-67): eat a run of
alphabetic characters; `begin` and `var` become keyword tokens, every other
run (including `func` and `return`) becomes an `Ident` token. -/
def lex_bareword (cs : List Char) : Option (Token × List Char) :=
  (eat_while is_alphabetic cs).map fun wr =>
    let word := String.mk wr.1
    (if word = "begin" then Token.Begin
     else if word = "var" then Token.Var
     else Token.Ident word, wr.2)

/-- `TokenStream::lex_integer`: a run of ASCII digits. -/
def lex_integer (cs : List Char) : Option (Token × List Char) :=
  (eat_while Char.isDigit cs).map fun wr => (Token.Integer (String.mk wr.1), wr.2)

/-- `TokenStream::lex_onechar_symbol` (src/lex.rs lines 73-87): the seven
one-character symbols handled by the source; there is no case for `,`. -/
def lex_onechar_symbol (cs : List Char) : Option (Token × List Char) :=
  match cs with
  | [] => none
  | c :: rest =>
    if c = '{' then some (Token.LeftBrace, rest)
    else if c = '}' then some (Token.RightBrace, rest)
    else if c = '=' then some (Token.Equals, rest)
    else if c = '(' then some (Token.LeftParen, rest)
    else if c = ')' then some (Token.RightParen, rest)
    else if c = '+' then some (Token.Plus, rest)
    else if c = ';' then some (Token.Semicolon, rest)
    else none

/-- `<TokenStream as Iterator>::next` (src/lex.rs lines 94-114): skip ASCII
whitespace; at end of input produce nothing; otherwise try `lex_bareword`,
then `lex_onechar_symbol`, then `lex_integer`, in that order; if none
matches, fail with the byte offset (the `panic!("Lexing error at idx ...")`,
the spec's LexError). On success also return the advanced offset. -/
def next_token (cs : List Char) (idx : Nat) : Except Nat (Option (Token × List Char × Nat)) :=
  let ws := cs.takeWhile is_ascii_whitespace
  let cs1 := cs.drop ws.length
  let idx1 := idx + ws.length
  match cs1 with
  | [] => .ok none
  | _ =>
    match lex_bareword cs1 with
    | some (t, rest) => .ok (some (t, rest, idx1 + (cs1.length - rest.length)))
    | none =>
      match lex_onechar_symbol cs1 with
      | some (t, rest) => .ok (some (t, rest, idx1 + (cs1.length - rest.length)))
      | none =>
        match lex_integer cs1 with
        | some (t, rest) => .ok (some (t, rest, idx1 + (cs1.length - rest.length)))
        | none => .error idx1

/-- The token loop driving `next_token`, with fuel. Every produced token
consumes at least one character, so fuel `length + 1` never runs out; the
fuel-exhausted branch reports the current offset. -/
def lex_go : Nat → List Char → Nat → Except Nat (List Token)
  | 0, _, idx => .error idx
  | fuel + 1, cs, idx =>
    match next_token cs idx with
    | .error i => .error i
    | .ok none => .ok []
    | .ok (some (t, rest, idx2)) => (lex_go fuel rest idx2).map (t :: ·)

/-- `lex_tokens` (src/lex.rs line 16): the full token sequence of a source
text, or the offset of the first lexing failure. -/
def lex_tokens (src : String) : Except Nat (List Token) :=
  lex_go (src.length + 1) src.toList 0

/-- `Expr` (src/ast.rs lines 170-188). The `u32` of `IntLit` is a `Nat`
kept below `2 ^ 32` by the parser. -/
inductive Expr where
  | IntLit (value : Nat)
  | VarRef (var_name : String)
  | Add (lhs rhs : Expr)
  | FuncCall (func_name : String) (args : List Expr)

/-- `Statement` (src/ast.rs lines 191-205). The Rust field named
`variable` is rendered `var_name` (`variable` is reserved in Lean). -/
inductive Statement where
  | VarDeclaration (var_name : String) (value : Expr)
  | Assignment (var_name : String) (value : Expr)
  | Return (value : Expr)

/-- `Item` (src/ast.rs lines 209-219). -/
inductive Item where
  | EntryBlock (body : List Statement)
  | FuncDef (name : String) (arg_names : List String) (body : List Statement)

/-- Parse failures. Every Rust `panic!`/`assert!`/`unwrap` in `src/ast.rs`
is modelled as `Unexpected` carrying the offending token (`none` at end of
input); `OutOfFuel` models exhaustion of the recursion fuel. -/
inductive ParseError where
  | Unexpected (t : Option Token)
  | OutOfFuel
deriving DecidableEq, Repr

/-- Rust `str::parse::<u32>` as the parser calls it on an integer token:
the numeric value of a non-empty all-digit string when it fits in a `u32`,
`none` otherwise. -/
def parse_u32 (s : String) : Option Nat :=
  let cs := s.toList
  if cs.isEmpty || !cs.all Char.isDigit then none
  else
    let n := cs.foldl (fun n c => n * 10 + (c.toNat - '0'.toNat)) 0
    if n < 2 ^ 32 then some n else none

mutual

/-- `ItemStream::parse_expr` (src/ast.rs lines 34-58): take the next token
(`unwrap` fails on end of input); an identifier followed by `(` starts a
function call via `parse_call`, otherwise it is a variable reference; an
integer token is parsed to a `u32` (its `unwrap` fails above `u32::MAX`);
any other token fails. Then, if the next token is `+`, consume it and
recurse for the whole right-hand side, yielding a right-associative `Add`;
otherwise return the primary expression unchanged. -/
def parse_expr : Nat → List Token → Except ParseError (Expr × List Token)
  | 0, _ => .error .OutOfFuel
  | fuel + 1, ts =>
    let prim : Except ParseError (Expr × List Token) :=
      match ts with
      | [] => .error (.Unexpected none)
      | Token.Ident s :: ts1 =>
        if ts1.head? = some Token.LeftParen then
          match parse_call fuel ts1 with
          | .error e => .error e
          | .ok (args, rest) => .ok (Expr.FuncCall s args, rest)
        else .ok (Expr.VarRef s, ts1)
      | Token.Integer s :: ts1 =>
        match parse_u32 s with
        | some n => .ok (Expr.IntLit n, ts1)
        | none => .error (.Unexpected (some (Token.Integer s)))
      | t :: _ => .error (.Unexpected (some t))
    match prim with
    | .error e => .error e
    | .ok (lexpr, rest) =>
      match rest with
      | Token.Plus :: rest2 =>
        match parse_expr fuel rest2 with
        | .error e => .error e
        | .ok (r, rest3) => .ok (Expr.Add lexpr r, rest3)
      | _ => .ok (lexpr, rest)

/-- `ItemStream::parse_call` (src/ast.rs lines 13-32): consume `(`
(assertion failure otherwise); an immediate `)` is the empty argument list;
otherwise loop through `parse_call_args`. -/
def parse_call : Nat → List Token → Except ParseError (List Expr × List Token)
  | 0, _ => .error .OutOfFuel
  | fuel + 1, ts =>
    match ts with
    | Token.LeftParen :: ts1 =>
      match ts1 with
      | Token.RightParen :: rest => .ok ([], rest)
      | _ => parse_call_args fuel ts1
    | _ => .error (.Unexpected ts.head?)

/-- The `loop` of `parse_call`: a full expression, then `,` continues the
loop and `)` ends it; any other token fails. -/
def parse_call_args : Nat → List Token → Except ParseError (List Expr × List Token)
  | 0, _ => .error .OutOfFuel
  | fuel + 1, ts =>
    match parse_expr fuel ts with
    | .error e => .error e
    | .ok (e, rest) =>
      match rest with
      | Token.Comma :: rest2 =>
        match parse_call_args fuel rest2 with
        | .error e2 => .error e2
        | .ok (es, r) => .ok (e :: es, r)
      | Token.RightParen :: rest2 => .ok ([e], rest2)
      | other => .error (.Unexpected other.head?)

end

/-- The trailing `assert!(Semicolon)` of `maybe_parse_statement`
(src/ast.rs line 99). -/
def expect_semicolon (st : Statement) (ts : List Token) :
    Except ParseError (Option (Statement × List Token)) :=
  match ts with
  | Token.Semicolon :: rest => .ok (some (st, rest))
  | _ => .error (.Unexpected ts.head?)

/-- `ItemStream::maybe_parse_statement` (src/ast.rs lines 60-101): peek one
token; `var` starts a declaration, a bare identifier an assignment, `return`
a return statement; any other token (or end of input) means the block is
finished. Each recognized form must end in `;`. -/
def maybe_parse_statement (fuel : Nat) (ts : List Token) :
    Except ParseError (Option (Statement × List Token)) :=
  match ts with
  | [] => .ok none
  | Token.Var :: ts1 =>
    match ts1 with
    | Token.Ident v :: Token.Equals :: ts2 =>
      match parse_expr fuel ts2 with
      | .error e => .error e
      | .ok (e, rest) => expect_semicolon (Statement.VarDeclaration v e) rest
    | Token.Ident _ :: ts2 => .error (.Unexpected ts2.head?)
    | _ => .error (.Unexpected ts1.head?)
  | Token.Ident v :: ts1 =>
    match ts1 with
    | Token.Equals :: ts2 =>
      match parse_expr fuel ts2 with
      | .error e => .error e
      | .ok (e, rest) => expect_semicolon (Statement.Assignment v e) rest
    | _ => .error (.Unexpected ts1.head?)
  | Token.Return :: ts1 =>
    match parse_expr fuel ts1 with
    | .error e => .error e
    | .ok (e, rest) => expect_semicolon (Statement.Return e) rest
  | _ => .ok none

/-- The statement loop shared by block parsing and function-body parsing
(src/ast.rs lines 106-109 and 147-150): repeatedly parse statements until
none matches. -/
def parse_stmt_list : Nat → List Token → Except ParseError (List Statement × List Token)
  | 0, _ => .error .OutOfFuel
  | fuel + 1, ts =>
    match maybe_parse_statement fuel ts with
    | .error e => .error e
    | .ok none => .ok ([], ts)
    | .ok (some (st, rest)) =>
      match parse_stmt_list fuel rest with
      | .error e => .error e
      | .ok (sts, r) => .ok (st :: sts, r)

/-- `ItemStream::parse_block_as_stmt_list` (src/ast.rs lines 103-114):
consume `{`, parse statements, consume `}`. -/
def parse_block_as_stmt_list (fuel : Nat) (ts : List Token) :
    Except ParseError (List Statement × List Token) :=
  match ts with
  | Token.LeftBrace :: ts1 =>
    match parse_stmt_list fuel ts1 with
    | .error e => .error e
    | .ok (sts, rest) =>
      match rest with
      | Token.RightBrace :: r2 => .ok (sts, r2)
      | _ => .error (.Unexpected rest.head?)
  | _ => .error (.Unexpected ts.head?)

/-- The parameter-list `loop` of a `func` item (src/ast.rs lines 133-145):
an identifier is pushed; a following `,` is consumed and the next token must
be an identifier (peeking past the end of input fails); `)` ends the list;
any other token fails. -/
def parse_param_list : Nat → List Token → Except ParseError (List String × List Token)
  | 0, _ => .error .OutOfFuel
  | fuel + 1, ts =>
    match ts with
    | [] => .error (.Unexpected none)
    | Token.Ident s :: ts1 =>
      match ts1 with
      | [] => .error (.Unexpected none)
      | Token.Comma :: ts2 =>
        match ts2.head? with
        | some (Token.Ident _) =>
          match parse_param_list fuel ts2 with
          | .error e => .error e
          | .ok (ps, r) => .ok (s :: ps, r)
        | h => .error (.Unexpected h)
      | _ :: _ =>
        match parse_param_list fuel ts1 with
        | .error e => .error e
        | .ok (ps, r) => .ok (s :: ps, r)
    | Token.RightParen :: ts1 => .ok ([], ts1)
    | t :: _ => .error (.Unexpected (some t))

/-- `<ItemStream as Iterator>::next` (src/ast.rs lines 120-166): end of
tokens ends the item sequence; `begin` is followed by a statement block;
`func` by a name, a parenthesized parameter list and a braced body; any
other token fails. -/
def parse_item (fuel : Nat) (ts : List Token) :
    Except ParseError (Option (Item × List Token)) :=
  match ts with
  | [] => .ok none
  | Token.Begin :: ts1 =>
    match parse_block_as_stmt_list fuel ts1 with
    | .error e => .error e
    | .ok (body, rest) => .ok (some (Item.EntryBlock body, rest))
  | Token.Func :: ts1 =>
    match ts1 with
    | Token.Ident name :: Token.LeftParen :: ts2 =>
      match parse_param_list fuel ts2 with
      | .error e => .error e
      | .ok (params, r1) =>
        match r1 with
        | Token.LeftBrace :: r2 =>
          match parse_stmt_list fuel r2 with
          | .error e => .error e
          | .ok (body, r3) =>
            match r3 with
            | Token.RightBrace :: r4 => .ok (some (Item.FuncDef name params body, r4))
            | _ => .error (.Unexpected r3.head?)
        | _ => .error (.Unexpected r1.head?)
    | Token.Ident _ :: ts2 => .error (.Unexpected ts2.head?)
    | _ => .error (.Unexpected ts1.head?)
  | t :: _ => .error (.Unexpected (some t))

/-- The item loop driving `parse_item`, with fuel. -/
def parse_items_go : Nat → List Token → Except ParseError (List Item)
  | 0, _ => .error .OutOfFuel
  | fuel + 1, ts =>
    match parse_item fuel ts with
    | .error e => .error e
    | .ok none => .ok []
    | .ok (some (it, rest)) => (parse_items_go fuel rest).map (it :: ·)

/-- `parse_items` (src/ast.rs line 3): the item sequence of a token list. -/
def parse_items (ts : List Token) : Except ParseError (List Item) :=
  parse_items_go (ts.length + 1) ts

/-- `Value` (src/interp.rs lines 169-172): the single runtime value kind, a
`u32`, modelled as a `Nat` (every value the interpreter produces is below
`2 ^ 32`). -/
inductive Value where
  | Int (n : Nat)
deriving DecidableEq, Repr

/-- Evaluation failures: each constructor models one Rust
`panic`/`expect`/`assert!` of `src/interp.rs`, named as in the spec's error
taxonomy. `OutOfFuel` models exhaustion of the recursion fuel (the fatal
call-stack resource failure). -/
inductive EvalError where
  | UndefinedVariable (name : String)
  | Redeclaration (name : String)
  | AssignToUndeclared (name : String)
  | UndefinedFunction (name : String)
  | ArityMismatch
  | MissingReturn
  | DoubleReturn
  | ReturnOutsideFunction
  | OutOfFuel
deriving DecidableEq, Repr

/-- `Function` (src/interp.rs lines 77-81). -/
structure Function where
  arg_names : List String
  body : List Statement

/-- `GlobalContext` (src/interp.rs lines 103-106): the function table. The
`HashMap` is modelled as an association list; insertion prepends, lookup
takes the first binding. -/
structure GlobalContext where
  functions : List (String × Function)

/-- `HashMap::get` on the function table. -/
def GlobalContext.get (g : GlobalContext) (name : String) : Option Function :=
  (g.functions.find? fun p => p.1 = name).map (·.2)

/-- `Context` (src/interp.rs lines 4-9): one call frame's variable scope and
pending-return slot. The `&GlobalContext` field is passed separately to the
evaluation functions below. -/
structure Context where
  vars : List (String × Value)
  func_ret : Option Value
deriving DecidableEq, Repr

/-- `Context::new` (src/interp.rs lines 12-18): empty variable map, empty
pending-return slot. -/
def Context.new : Context := { vars := [], func_ret := none }

/-- `Context::get_var` (and `has_var`): first binding of the name. -/
def Context.get_var (ctx : Context) (name : String) : Option Value :=
  (ctx.vars.find? fun p => p.1 = name).map (·.2)

/-- `Context::has_var`. -/
def Context.has_var (ctx : Context) (name : String) : Bool :=
  (ctx.get_var name).isSome

/-- `Context::create_var` (`HashMap::insert`, also used for assignment's
overwrite): prepend the binding; `get_var` sees the newest one. -/
def Context.create_var (ctx : Context) (name : String) (val : Value) : Context :=
  { ctx with vars := (name, val) :: ctx.vars }

/-- The fresh scope `Function::call` builds (src/interp.rs lines 90-93):
`Context::new`, then `create_var` for each pair of the zip of the parameter
names with the argument values. -/
def initial_call_scope (f : Function) (vals : List Value) : Context :=
  (f.arg_names.zip vals).foldl (fun c p => c.create_var p.1 p.2) Context.new

mutual

/-- `Context::reduce_expr` (src/interp.rs lines 36-52): literals are their
value; a variable reference looks the name up in the current scope (its
`expect` is the UndefinedVariable failure); `Add` reduces both operands and
adds them with `u32` wraparound; a function call hands the *unevaluated*
argument expressions together with the caller scope to `call_func` — in the
Rust source `args.iter().map(|i| self.reduce_expr(i))` builds a lazy
iterator, so no argument is reduced before the callee lookup and arity
check consume the iterator. -/
def reduce_expr : Nat → GlobalContext → Context → Expr → Except EvalError Value
  | 0, _, _, _ => .error .OutOfFuel
  | fuel + 1, g, ctx, e =>
    match e with
    | .IntLit n => .ok (.Int n)
    | .VarRef v =>
      match ctx.get_var v with
      | some val => .ok val
      | none => .error (.UndefinedVariable v)
    | .Add lhs rhs =>
      match reduce_expr fuel g ctx lhs with
      | .error err => .error err
      | .ok (.Int l) =>
        match reduce_expr fuel g ctx rhs with
        | .error err => .error err
        | .ok (.Int r) => .ok (.Int ((l + r) % 2 ^ 32))
    | .FuncCall name args => call_func fuel g name ctx args

/-- `GlobalContext::call_func` (src/interp.rs lines 115-120): look the
function up (its `expect` is the UndefinedFunction failure) and invoke it.
The pair (caller scope, argument expressions) models the lazy argument
iterator, still unevaluated at this point. -/
def call_func : Nat → GlobalContext → String → Context → List Expr → Except EvalError Value
  | 0, _, _, _, _ => .error .OutOfFuel
  | fuel + 1, g, name, caller, args =>
    match g.get name with
    | none => .error (.UndefinedFunction name)
    | some f => Function.call fuel f caller args g

/-- `Function::call` (src/interp.rs lines 88-100): first the arity
assertion — `ExactSizeIterator::len` of the lazy argument iterator is the
number of argument expressions, so the check evaluates no argument — then
the arguments are reduced in the caller's scope, a brand-new scope is
populated by zipping parameter names to argument values, the body runs in
it, and the call fails with MissingReturn if the pending-return slot is
still empty after the body, else yields the slot's value. -/
def Function.call : Nat → Function → Context → List Expr → GlobalContext → Except EvalError Value
  | 0, _, _, _, _ => .error .OutOfFuel
  | fuel + 1, f, caller, args, g =>
    if f.arg_names.length ≠ args.length then .error .ArityMismatch
    else
      match reduce_args fuel g caller args with
      | .error err => .error err
      | .ok vals =>
        match run_body fuel g (initial_call_scope f vals) f.body with
        | .error err => .error err
        | .ok endctx =>
          match endctx.func_ret with
          | none => .error .MissingReturn
          | some v => .ok v

/-- Consuming the lazy argument iterator: each argument expression is
reduced in the caller's scope, left to right. -/
def reduce_args : Nat → GlobalContext → Context → List Expr → Except EvalError (List Value)
  | 0, _, _, _ => .error .OutOfFuel
  | fuel + 1, g, ctx, args =>
    match args with
    | [] => .ok []
    | a :: rest =>
      match reduce_expr fuel g ctx a with
      | .error err => .error err
      | .ok v =>
        match reduce_args fuel g ctx rest with
        | .error err => .error err
        | .ok vs => .ok (v :: vs)

/-- `Context::eval` (src/interp.rs lines 54-74): a declaration checks
`has_var` first (Redeclaration), an assignment checks it first
(AssignToUndeclared); both then reduce the right-hand side and store it. A
return first asserts the pending-return slot is empty (DoubleReturn), then
reduces its expression into the slot. -/
def eval : Nat → GlobalContext → Context → Statement → Except EvalError Context
  | 0, _, _, _ => .error .OutOfFuel
  | fuel + 1, g, ctx, st =>
    match st with
    | .VarDeclaration v e =>
      if ctx.has_var v then .error (.Redeclaration v)
      else
        match reduce_expr fuel g ctx e with
        | .error err => .error err
        | .ok val => .ok (ctx.create_var v val)
    | .Assignment v e =>
      if ctx.has_var v then
        match reduce_expr fuel g ctx e with
        | .error err => .error err
        | .ok val => .ok (ctx.create_var v val)
      else .error (.AssignToUndeclared v)
    | .Return e =>
      match ctx.func_ret with
      | some _ => .error .DoubleReturn
      | none =>
        match reduce_expr fuel g ctx e with
        | .error err => .error err
        | .ok val => .ok { ctx with func_ret := some val }

/-- The statement loop of `Function::call` (src/interp.rs lines 95-97):
every body statement is evaluated in order — there is no early exit when a
`return` has filled the pending-return slot. -/
def run_body : Nat → GlobalContext → Context → List Statement → Except EvalError Context
  | 0, _, _, _ => .error .OutOfFuel
  | fuel + 1, g, ctx, body =>
    match body with
    | [] => .ok ctx
    | st :: rest =>
      match eval fuel g ctx st with
      | .error err => .error err
      | .ok ctx2 => run_body fuel g ctx2 rest

end

/-- `Program` (src/interp.rs lines 128-132). -/
structure Program where
  begin_body : List Statement
  global : GlobalContext

/-- Program-construction failures (the spec's ProgramError): the
`assert!` for a second entry block, the `unwrap` of a missing one, and the
`assert!` of `GlobalContext::add_func` for a duplicate name. -/
inductive ProgramError where
  | MultipleEntryBlocks
  | NoEntryBlock
  | DuplicateFunction (name : String)
deriving DecidableEq, Repr

/-- `GlobalContext::add_func` (src/interp.rs lines 122-125): fails when the
name is already present, else inserts. -/
def GlobalContext.add_func (g : GlobalContext) (name : String) (f : Function) :
    Except ProgramError GlobalContext :=
  if (g.get name).isSome then .error (.DuplicateFunction name)
  else .ok ⟨(name, f) :: g.functions⟩

/-- The item loop of `Program::from_items` (src/interp.rs lines 140-150),
with its final `begin_body.unwrap()`: an entry block when one was already
seen is the MultipleEntryBlocks failure; a function definition goes through
`add_func`; at the end a program needs exactly the one recorded entry
block. No statement is evaluated here. -/
def from_items_go : List Item → Option (List Statement) → GlobalContext → Except ProgramError Program
  | [], bb, g =>
    match bb with
    | none => .error .NoEntryBlock
    | some b => .ok ⟨b, g⟩
  | Item.EntryBlock body :: rest, bb, g =>
    match bb with
    | some _ => .error .MultipleEntryBlocks
    | none => from_items_go rest (some body) g
  | Item.FuncDef name params body :: rest, bb, g =>
    match g.add_func name ⟨params, body⟩ with
    | .error e => .error e
    | .ok g2 => from_items_go rest bb g2

/-- `Program::from_items` (src/interp.rs lines 135-156). -/
def Program.from_items (items : List Item) : Except ProgramError Program :=
  from_items_go items none ⟨[]⟩

/-- Whether a statement is a `return`, the `matches!` of
`Program::execute`. -/
def Statement.is_ret : Statement → Bool
  | .Return _ => true
  | _ => false

/-- The statement loop of `Program::execute` (src/interp.rs lines 160-165):
each statement is first checked not to be a `return` (the panic is the
ReturnOutsideFunction failure, raised when the statement is reached), then
evaluated. -/
def execute_body (fuel : Nat) (g : GlobalContext) :
    Context → List Statement → Except EvalError Context
  | ctx, [] => .ok ctx
  | ctx, st :: rest =>
    if st.is_ret then .error .ReturnOutsideFunction
    else
      match eval fuel g ctx st with
      | .error err => .error err
      | .ok ctx2 => execute_body fuel g ctx2 rest

/-- `Program::execute` (src/interp.rs lines 158-166): run the entry block's
statements against a fresh scope. The final scope is returned so that runs
to completion are observable. -/
def Program.execute (fuel : Nat) (p : Program) : Except EvalError Context :=
  execute_body fuel p.global Context.new p.begin_body

/-- How many entry blocks an item sequence holds. -/
def entry_count (items : List Item) : Nat :=
  items.countP fun i =>
    match i with
    | .EntryBlock _ => true
    | _ => false

/-- The function names of an item sequence, in order. -/
def func_names (items : List Item) : List String :=
  items.filterMap fun i =>
    match i with
    | .FuncDef n _ _ => some n
    | _ => none

/-- The token sequence of `begin { var x = 1; var y = 2; return x + y; }`. -/
def c4_tokens : List Token := [Token.Begin, Token.LeftBrace,
  Token.Var, Token.Ident "x", Token.Equals, Token.Integer "1", Token.Semicolon,
  Token.Var, Token.Ident "y", Token.Equals, Token.Integer "2", Token.Semicolon,
  Token.Return, Token.Ident "x", Token.Plus, Token.Ident "y", Token.Semicolon,
  Token.RightBrace]

/-- The statements of the entry block `{ var x = 1; var y = 2;
return x + y; }`. -/
def c4_body : List Statement := [Statement.VarDeclaration "x" (Expr.IntLit 1),
  Statement.VarDeclaration "y" (Expr.IntLit 2),
  Statement.Return (Expr.Add (Expr.VarRef "x") (Expr.VarRef "y"))]

/-- A parameterless function whose body is `return 1; return 2;`: its second
statement sits after a `return`. -/
def f_double : Function := ⟨[], [Statement.Return (Expr.IntLit 1),
  Statement.Return (Expr.IntLit 2)]⟩

/-- A parameterless function with an empty body: no path executes a
`return`. -/
def f_noret : Function := ⟨[], []⟩

/-- A one-parameter identity function, `func id(a) { return a; }`. -/
def c3_func : Function := ⟨["a"], [Statement.Return (Expr.VarRef "a")]⟩

/-- A frame whose pending-return slot is already filled. -/
def c5_ctx : Context := ⟨[("a", Value.Int 1)], some (Value.Int 1)⟩

theorem get_var_create_var (ctx : Context) (a x : String) (w : Value) :
    (ctx.create_var a w).get_var x = if a = x then some w else ctx.get_var x := by
  by_cases h : a = x <;>
    simp [Context.create_var, Context.get_var, List.find?_cons, h]

theorem get_var_foldl_mem (ps : List (String × Value)) (c : Context) (x : String) (v : Value)
    (h : (ps.foldl (fun c p => c.create_var p.1 p.2) c).get_var x = some v) :
    (x, v) ∈ ps ∨ c.get_var x = some v := by
  induction ps generalizing c with
  | nil => exact Or.inr h
  | cons p rest ih =>
    rcases ih (c.create_var p.1 p.2) h with h1 | h2
    · exact Or.inl (List.mem_cons_of_mem _ h1)
    · rw [get_var_create_var] at h2
      by_cases hp : p.1 = x
      · rw [if_pos hp] at h2
        refine Or.inl ?_
        have hv : v = p.2 := (Option.some_injective _ h2).symm
        have : (x, v) = p := by
          rw [hv, ← hp]
        rw [this]
        exact List.mem_cons_self _ _
      · rw [if_neg hp] at h2
        exact Or.inr h2

theorem gc_get_cons (l : List (String × Function)) (a x : String) (f : Function) :
    GlobalContext.get ⟨(a, f) :: l⟩ x = if a = x then some f else GlobalContext.get ⟨l⟩ x := by
  by_cases h : a = x <;> simp [GlobalContext.get, List.find?_cons, h]

theorem from_items_go_ok (items : List Item) :
    ∀ (bb : Option (List Statement)) (g : GlobalContext) (p : Program),
      from_items_go items bb g = .ok p →
      entry_count items = (if bb.isSome then 0 else 1) ∧
      (func_names items).Nodup ∧
      ∀ n ∈ func_names items, g.get n = none := by
  induction items with
  | nil =>
    intro bb g p h
    match bb with
    | none => simp [from_items_go] at h
    | some b => simp [entry_count, func_names]
  | cons i rest ih =>
    intro bb g p h
    match i with
    | Item.EntryBlock body =>
      match bb with
      | some _ => simp [from_items_go] at h
      | none =>
        obtain ⟨h1, h2, h3⟩ := ih (some body) g p h
        refine ⟨?_, h2, h3⟩
        simpa [entry_count, List.countP_cons] using h1
    | Item.FuncDef name params body =>
      rw [from_items_go] at h
      by_cases hdup : (g.get name).isSome
      · simp [GlobalContext.add_func, hdup] at h
      · have hnone : g.get name = none := Option.not_isSome_iff_eq_none.mp hdup
        rw [GlobalContext.add_func, if_neg hdup] at h
        obtain ⟨h1, h2, h3⟩ := ih bb ⟨(name, ⟨params, body⟩) :: g.functions⟩ p h
        have hmem : name ∉ func_names rest := by
          intro hin
          have := h3 name hin
          rw [gc_get_cons, if_pos rfl] at this
          exact Option.noConfusion this
        refine ⟨?_, ?_, ?_⟩
        · simpa [entry_count, List.countP_cons] using h1
        · rw [show func_names (Item.FuncDef name params body :: rest) =
              name :: func_names rest from rfl]
          exact List.nodup_cons.mpr ⟨hmem, h2⟩
        · intro n hn
          rw [show func_names (Item.FuncDef name params body :: rest) =
                name :: func_names rest from rfl] at hn
          rcases List.mem_cons.mp hn with rfl | hn2
          · exact hnone
          · have := h3 n hn2
            rw [gc_get_cons] at this
            by_cases hx : name = n
            · rw [if_pos hx] at this
              exact Option.noConfusion this
            · rwa [if_neg hx] at this

/-- Claim C1 (code bug): evaluating the tokenizer at the failing inputs.
`lex_bareword` recognizes only `begin` and `var` as keywords; the runs
`func` and `return` ARE emitted as identifier tokens, contrary to the claim
(the parser of src/ast.rs matches `Token::Func` and `Token::Return`, which
the token enum of src/lex.rs does not even declare). -/
theorem c1_keywords :
    lex_tokens "func" = .ok [Token.Ident "func"] ∧
    lex_tokens "return" = .ok [Token.Ident "return"] ∧
    lex_tokens "begin" = .ok [Token.Begin] ∧
    lex_tokens "var" = .ok [Token.Var] :=
  ⟨rfl, rfl, rfl, rfl⟩

/-- Claim C2 (code bug): evaluating the tokenizer at the failing input. Of
the eight symbols the claim lists, `lex_onechar_symbol` handles only seven:
a `,` reaches no classification and the tokenizer fails with the LexError
at byte offset 0, although the parser of src/ast.rs requires `Token::Comma`
in argument and parameter lists. -/
theorem c2_comma :
    lex_tokens "," = .error 0 ∧
    lex_tokens "{}()=+;" = .ok [Token.LeftBrace, Token.RightBrace, Token.LeftParen,
      Token.RightParen, Token.Equals, Token.Plus, Token.Semicolon] :=
  ⟨rfl, rfl⟩

/-- Claim C4, counterexample: parsing the token sequence of
`begin { var x = 1; var y = 2; return x + y; }` SUCCEEDS — the parser
happily builds a `return` statement inside the entry block, so the claimed
parse-time ReturnOutsideFunction failure does not exist. -/
theorem c4_parse_succeeds : parse_items c4_tokens = .ok [Item.EntryBlock c4_body] := rfl

/-- Claim C4, amended: a program whose entry block contains a `return`
fails with ReturnOutsideFunction at EXECUTION time, when the statement is
reached (program construction and parsing succeed); an entry block that
omits the `return` runs to completion. -/
theorem c4_amended :
    Program.from_items [Item.EntryBlock c4_body] = .ok ⟨c4_body, ⟨[]⟩⟩ ∧
    Program.execute 10 ⟨c4_body, ⟨[]⟩⟩ = .error .ReturnOutsideFunction ∧
    Program.execute 10 ⟨[Statement.VarDeclaration "x" (Expr.IntLit 1),
        Statement.VarDeclaration "y" (Expr.IntLit 2)], ⟨[]⟩⟩ =
      .ok ⟨[("y", Value.Int 2), ("x", Value.Int 1)], none⟩ :=
  ⟨rfl, rfl, rfl⟩

/-- Claim C5, counterexample: in `func f() { return 1; return 2; }` the
statement after the first `return` IS executed — the call fails with
DoubleReturn instead of yielding 1 with the second statement skipped. -/
theorem c5_counterexample :
    Function.call 10 f_double Context.new [] ⟨[]⟩ = .error .DoubleReturn ∧
    Function.call 10 f_double Context.new [] ⟨[]⟩ ≠ .ok (Value.Int 1) := by
  have h1 : Function.call 10 f_double Context.new [] ⟨[]⟩ = .error .DoubleReturn := rfl
  exact ⟨h1, fun h => by rw [h1] at h; exact Except.noConfusion h⟩

/-- Claim C5, amended: the body statements of an invoked function all run
in order even after a `return` has set the pending-return slot; a statement
after the `return` is executed with its effects — a second `return` fails
with DoubleReturn, a declaration still performs its redeclaration check —
and the call yields the slot's value only once the whole body has run. -/
theorem c5_amended (fuel : Nat) (g : GlobalContext) (ctx : Context) (v : Value)
    (h : ctx.func_ret = some v) :
    (∀ e rest, run_body (fuel + 1 + 1) g ctx (Statement.Return e :: rest) =
      .error .DoubleReturn) ∧
    (∀ x e rest, ctx.has_var x = true →
      run_body (fuel + 1 + 1) g ctx (Statement.VarDeclaration x e :: rest) =
        .error (.Redeclaration x)) := by
  constructor
  · intro e rest
    simp only [run_body, eval, h]
  · intro x e rest hx
    simp only [run_body, eval, hx]
    rfl

/-- Claim C5, witness for the amended theorem at a concrete frame. -/
theorem c5_amended_witness :
    run_body 5 ⟨[]⟩ c5_ctx [Statement.Return (Expr.IntLit 0)] = .error .DoubleReturn :=
  (c5_amended 3 ⟨[]⟩ c5_ctx (Value.Int 1) rfl).1 (Expr.IntLit 0) []

/-- Claim C3: a callee executes against a brand-new scope populated only by
zipping its parameter names to the argument values: a name outside the
parameter list is absent from the initial scope, every binding of the
initial scope comes from the zip, and the outcome of `Function::call`
depends on the caller's frame only through the reduced argument values —
two callers whose argument expressions reduce identically get identical
call results, so no caller-local variable is visible to or modifiable by
the callee. -/
theorem c3_scope_isolation (fuel : Nat) (g : GlobalContext) (f : Function) (vals : List Value) :
    (∀ x, x ∉ f.arg_names → (initial_call_scope f vals).get_var x = none) ∧
    (∀ x v, (initial_call_scope f vals).get_var x = some v → (x, v) ∈ f.arg_names.zip vals) ∧
    (∀ caller caller' args,
      reduce_args fuel g caller args = reduce_args fuel g caller' args →
      Function.call (fuel + 1) f caller args g = Function.call (fuel + 1) f caller' args g) := by
  refine ⟨?_, ?_, ?_⟩
  · intro x hx
    cases hv : (initial_call_scope f vals).get_var x with
    | none => rfl
    | some v =>
      rcases get_var_foldl_mem _ _ _ _ hv with hmem | hbase
      · exact absurd (List.of_mem_zip hmem).1 hx
      · exact Option.noConfusion hbase
  · intro x v hv
    rcases get_var_foldl_mem _ _ _ _ hv with hmem | hbase
    · exact hmem
    · exact Option.noConfusion hbase
  · intro caller caller' args h
    simp only [Function.call]
    rw [h]

/-- Claim C3, witness: the initial scope of a call to `func id(a)` with one
argument holds nothing under any other name. -/
theorem c3_witness : (initial_call_scope c3_func [Value.Int 7]).get_var "z" = none :=
  (c3_scope_isolation 0 ⟨[]⟩ c3_func [Value.Int 7]).1 "z" (by decide)

/-- Claim C6: when an invocation's body completes and the pending-return
slot is still empty, the call fails with MissingReturn — it never yields a
default value — and when the slot holds a value the call yields exactly that
value. -/
theorem c6_missing_return (fuel : Nat) (f : Function) (caller : Context) (args : List Expr)
    (g : GlobalContext) (vals : List Value) (endctx : Context)
    (harity : f.arg_names.length = args.length)
    (hargs : reduce_args fuel g caller args = .ok vals)
    (hbody : run_body fuel g (initial_call_scope f vals) f.body = .ok endctx) :
    (endctx.func_ret = none → Function.call (fuel + 1) f caller args g = .error .MissingReturn) ∧
    (∀ v, endctx.func_ret = some v → Function.call (fuel + 1) f caller args g = .ok v) := by
  constructor
  · intro hret
    simp [Function.call, harity, hargs, hbody, hret]
  · intro v hret
    simp [Function.call, harity, hargs, hbody, hret]

/-- Claim C6, witness: calling `func f() { }` fails with MissingReturn. -/
theorem c6_witness : Function.call 6 f_noret Context.new [] ⟨[]⟩ = .error .MissingReturn :=
  (c6_missing_return 5 f_noret Context.new [] ⟨[]⟩ [] Context.new rfl rfl rfl).1 rfl

/-- Claim C7: building a program from an item sequence with no entry block,
more than one entry block, or two function definitions sharing a name fails
with a ProgramError; `from_items` evaluates no statement, so the failure
precedes any execution. -/
theorem c7_program_error (items : List Item)
    (h : entry_count items ≠ 1 ∨ ¬ (func_names items).Nodup) :
    ∃ e, Program.from_items items = .error e := by
  cases hfi : Program.from_items items with
  | error e => exact ⟨e, rfl⟩
  | ok p =>
    rw [Program.from_items] at hfi
    obtain ⟨h1, h2, -⟩ := from_items_go_ok items none ⟨[]⟩ p hfi
    simp only [Option.isSome_none, Bool.false_eq_true, if_false] at h1
    rcases h with h | h
    · exact absurd h1 h
    · exact absurd h2 h

/-- Claim C7, witness: two entry blocks fail program construction. -/
theorem c7_witness : ∃ e, Program.from_items [Item.EntryBlock [], Item.EntryBlock []] = .error e :=
  c7_program_error _ (Or.inl (by decide))

/-- Claim C8: after a primary expression, a `+` token makes `parse_expr`
consume it and recurse for the entire right-hand side, so `a + b + c`
parses to `Add (a, Add (b, c))`; without a following `+` the primary
expression is returned unchanged. -/
theorem c8_right_assoc (fuel : Nat) (a b c : String) (rest : List Token) :
    (parse_expr (fuel + 1) (Token.Ident a :: Token.Plus :: rest) =
      match parse_expr fuel rest with
      | .error e => .error e
      | .ok (r, rest3) => .ok (Expr.Add (Expr.VarRef a) r, rest3)) ∧
    (parse_expr 9 [Token.Ident a, Token.Plus, Token.Ident b, Token.Plus, Token.Ident c] =
      .ok (Expr.Add (Expr.VarRef a) (Expr.Add (Expr.VarRef b) (Expr.VarRef c)), [])) ∧
    (rest.head? ≠ some Token.Plus → rest.head? ≠ some Token.LeftParen →
      parse_expr (fuel + 1) (Token.Ident a :: rest) = .ok (Expr.VarRef a, rest)) := by
  refine ⟨rfl, rfl, ?_⟩
  intro h1 h2
  match rest with
  | [] => rfl
  | t :: ts =>
    cases t
    case Plus => exact absurd rfl h1
    case LeftParen => exact absurd rfl h2
    all_goals rfl

/-- Claim C8, witness: a primary expression not followed by `+` is returned
unchanged. -/
theorem c8_witness :
    parse_expr 4 [Token.Ident "x", Token.Semicolon] = .ok (Expr.VarRef "x", [Token.Semicolon]) :=
  (c8_right_assoc 3 "x" "b" "c" [Token.Semicolon]).2.2 (by decide) (by decide)

/-- Claim C9: reducing an `Add` whose operands reduce to the integers `l`
and `r` yields `(l + r) mod 2 ^ 32` — unsigned 32-bit addition wrapping on
overflow — for all operand values. -/
theorem c9_add_wraps (fuel : Nat) (g : GlobalContext) (ctx : Context) (e1 e2 : Expr) (l r : Nat)
    (h1 : reduce_expr fuel g ctx e1 = .ok (.Int l))
    (h2 : reduce_expr fuel g ctx e2 = .ok (.Int r)) :
    reduce_expr (fuel + 1) g ctx (.Add e1 e2) = .ok (.Int ((l + r) % 2 ^ 32)) := by
  simp only [reduce_expr]
  rw [h1, h2]

/-- Claim C9, witness at an overflowing input: `u32::MAX + 1` wraps to 0. -/
theorem c9_witness :
    reduce_expr 2 ⟨[]⟩ Context.new (Expr.Add (Expr.IntLit 4294967295) (Expr.IntLit 1)) =
      .ok (Value.Int 0) := by
  have h := c9_add_wraps 1 ⟨[]⟩ Context.new (Expr.IntLit 4294967295) (Expr.IntLit 1)
    4294967295 1 rfl rfl
  exact h.trans (by norm_num)

/-- Claim C10: a call that fails with UndefinedFunction or with
ArityMismatch evaluates none of its argument expressions: the failure is
the same for every argument list (of the given length), including argument
expressions whose own reduction would fail, because the lookup and the
arity check precede all argument reduction. -/
theorem c10_no_arg_eval (fuel : Nat) (g : GlobalContext) (ctx : Context) (name : String)
    (args : List Expr) :
    (g.get name = none →
      reduce_expr (fuel + 1 + 1 + 1) g ctx (.FuncCall name args) =
        .error (.UndefinedFunction name)) ∧
    (∀ f, g.get name = some f → f.arg_names.length ≠ args.length →
      reduce_expr (fuel + 1 + 1 + 1) g ctx (.FuncCall name args) = .error .ArityMismatch) := by
  constructor
  · intro h
    simp only [reduce_expr, call_func]
    rw [h]
  · intro f hf hlen
    simp only [reduce_expr, call_func]
    rw [hf]
    simp only [Function.call]
    rw [if_pos hlen]

/-- Claim C10, witness: an undefined function name fails before its
argument — itself an undefined variable whose reduction would fail — is
ever evaluated. -/
theorem c10_witness :
    reduce_expr 9 ⟨[]⟩ Context.new (Expr.FuncCall "nosuch" [Expr.VarRef "undef"]) =
      .error (.UndefinedFunction "nosuch") :=
  (c10_no_arg_eval 6 ⟨[]⟩ Context.new "nosuch" [Expr.VarRef "undef"]).1 rfl

end FooLang
